import Mathlib

/-!
Shallow embedding of the Riskia occupational-risk-map application.

The definitions below are translated from the repository's TypeScript
source:

* `getRiskTypeColor` — server-side color lookup (`server/llm-helpers.ts`);
* `getRiskColor` — client-side color lookup (RiskMapEditor page);
* `generateDistributedPosition` — grid-plus-jitter marker layout
  (RiskMapEditor page); coordinates are modelled over `ℚ`, the jitter
  term `(Math.random() - 0.5) * 40` is modelled as an arbitrary rational
  in `[-20, 20]`;
* the database layer (`server/db.ts`): `getRiskMapWithRisks`,
  `createRiskMap`, `addRisk`, `deleteRiskMap`, with the relational store
  modelled as lists of rows plus auto-increment counters;
* the tRPC router wrappers (`server/routers.ts`) for `riskMaps.delete`
  and `risks.add`;
* the `useDebounce` hook (client hook), modelled as a fold over a
  timeline of call events;
* the response-parsing stage of `identifyRisks`
  (`server/llm-helpers.ts`), with the JavaScript `JSON.parse` builtin
  modelled by an executable JSON parser (restricted to integral
  numerals and the basic string escapes, which covers every input the
  theorems exercise).
-/

namespace Riskia

/-! ## Closed enumerations (drizzle/schema.ts) -/

/-- `riskTypeEnum` from `drizzle/schema.ts`: the closed category enumeration. -/
def riskTypeEnum : List String :=
  ["acidental", "chemical", "ergonomic", "physical", "biological"]

/-- `severityEnum` from `drizzle/schema.ts`. -/
def severityEnum : List String :=
  ["low", "medium", "high", "critical"]

/-! ## Color lookups -/

/-- Server-side `getRiskTypeColor` (`server/llm-helpers.ts`): object lookup
with fallback `"#999999"`, modelled at its runtime (string-keyed) behavior. -/
def getRiskTypeColor (t : String) : String :=
  if t = "physical" then "#22C55E"
  else if t = "ergonomic" then "#EAB308"
  else if t = "acidental" then "#3B82F6"
  else if t = "biological" then "#92400E"
  else if t = "chemical" then "#EF4444"
  else "#999999"

/-- Client-side `getRiskColor` (RiskMapEditor page, identical copies in both
editor revisions): object lookup with fallback `"#999999"`. -/
def getRiskColor (t : String) : String :=
  if t = "acidental" then "#FF6B6B"
  else if t = "chemical" then "#FFD93D"
  else if t = "ergonomic" then "#6BCB77"
  else if t = "physical" then "#4D96FF"
  else if t = "biological" then "#FF6B9D"
  else "#999999"

/-! ## Risk layout engine (`generateDistributedPosition`) -/

/-- `Math.ceil(Math.sqrt(n))` for a natural `n`.  For `n ≥ 1` this is
`Nat.sqrt (n - 1) + 1`, the least `c` with `n ≤ c * c` (proved in
`ceilSqrt_spec` below), which is exactly the ceiling of the real square
root of a natural number. -/
def ceilSqrt (n : ℕ) : ℕ :=
  if n = 0 then 0 else Nat.sqrt (n - 1) + 1

/-- `Math.ceil(a / b)` for naturals (`b ≠ 0`): ceiling division. -/
def ceilDiv (a b : ℕ) : ℕ := (a + b - 1) / b

/-- The position record returned by `generateDistributedPosition`. -/
structure Position where
  xPosition : ℚ
  yPosition : ℚ
deriving DecidableEq, Repr

/-- The grid-cell center (pre-jitter, pre-clamp) that
`generateDistributedPosition` derives for `index` out of `total`, on a
`W × H` canvas: `padding = 100`, `cols = Math.ceil(Math.sqrt(total))`,
`cellWidth = (W - 2·padding) / cols`,
`cellHeight = (H - 2·padding) / Math.ceil(total / cols)`,
center of cell `(index mod cols, index div cols)`. -/
def gridCenter (index total : ℕ) (W H : ℚ) : ℚ × ℚ :=
  let padding : ℚ := 100
  let availableWidth := W - padding * 2
  let availableHeight := H - padding * 2
  let cols := ceilSqrt total
  let cellWidth := availableWidth / cols
  let cellHeight := availableHeight / (ceilDiv total cols : ℕ)
  let col := index % cols
  let row := index / cols
  (padding + col * cellWidth + cellWidth / 2,
   padding + row * cellHeight + cellHeight / 2)

/-- `generateDistributedPosition` (RiskMapEditor page): grid center plus
jitter `(jx, jy)` (each modelling one `(Math.random() - 0.5) * 40` draw),
clamped to `[50, W - 50] × [50, H - 50]` via
`Math.max(50, Math.min(W - 50, x))`. -/
def generateDistributedPosition (index total : ℕ) (W H jx jy : ℚ) : Position :=
  let x := (gridCenter index total W H).1 + jx
  let y := (gridCenter index total W H).2 + jy
  { xPosition := max 50 (min (W - 50) x),
    yPosition := max 50 (min (H - 50) y) }

/-! ## Persistence layer (`server/db.ts`), store modelled as row lists -/

/-- A row of the `risk_maps` table (`drizzle/schema.ts`). -/
structure RiskMapRow where
  id : ℕ
  userId : ℕ
  title : String
  description : String
  floorPlanSvg : String
  width : ℤ
  height : ℤ
deriving DecidableEq, Repr

/-- A row of the `risks` table (`drizzle/schema.ts`).  `description` is the
single nullable column. -/
structure RiskRow where
  id : ℕ
  mapId : ℕ
  rtype : String
  severity : String
  label : String
  description : Option String
  xPosition : ℤ
  yPosition : ℤ
  radius : ℤ
  color : String
deriving DecidableEq, Repr

/-- The relational store: both tables plus their auto-increment counters
(MySQL starts auto-increment at 1). -/
structure Database where
  maps : List RiskMapRow
  risks : List RiskRow
  nextMapId : ℕ
  nextRiskId : ℕ
deriving DecidableEq, Repr

/-- `InsertRiskMap` (`drizzle/schema.ts`): the insertable columns of
`risk_maps`. -/
structure InsertRiskMap where
  userId : ℕ
  title : String
  description : String
  floorPlanSvg : String
  width : ℤ
  height : ℤ
deriving DecidableEq, Repr

/-- `InsertRisk` (`drizzle/schema.ts`): the insertable columns of `risks`. -/
structure InsertRisk where
  mapId : ℕ
  rtype : String
  severity : String
  label : String
  description : Option String
  xPosition : ℤ
  yPosition : ℤ
  radius : ℤ
  color : String
deriving DecidableEq, Repr

/-- `db.getRiskMapWithRisks(mapId, userId)` (`server/db.ts`): select the map
row by id; return `null` when the row is absent **or** its `userId` differs
from the caller; otherwise also select all risks of the map. -/
def getRiskMapWithRisks (mapId userId : ℕ) (db : Database) :
    Option (RiskMapRow × List RiskRow) :=
  match db.maps.find? (fun m => m.id == mapId) with
  | none => none
  | some m =>
    if m.userId ≠ userId then none
    else some (m, db.risks.filter (fun r => r.mapId == mapId))

/-- `db.createRiskMap(data)` (`server/db.ts`): plain insert; the store
returns the new row's auto-increment id. -/
def createRiskMap (data : InsertRiskMap) (db : Database) : Database × ℕ :=
  let newId := db.nextMapId
  ({ db with
      maps := db.maps ++ [⟨newId, data.userId, data.title, data.description,
        data.floorPlanSvg, data.width, data.height⟩],
      nextMapId := newId + 1 }, newId)

/-- `db.addRisk(data)` (`server/db.ts`): plain insert into `risks`; the
source performs **no** check that `data.mapId` references an existing map. -/
def addRisk (data : InsertRisk) (db : Database) : Database × ℕ :=
  let newId := db.nextRiskId
  ({ db with
      risks := db.risks ++ [⟨newId, data.mapId, data.rtype, data.severity,
        data.label, data.description, data.xPosition, data.yPosition,
        data.radius, data.color⟩],
      nextRiskId := newId + 1 }, newId)

/-- First step of `db.deleteRiskMap`: `DELETE FROM risks WHERE map_id = ?`. -/
def deleteRisksByMapId (mapId : ℕ) (db : Database) : Database :=
  { db with risks := db.risks.filter (fun r => r.mapId != mapId) }

/-- Second step of `db.deleteRiskMap`: `DELETE FROM risk_maps WHERE id = ?`. -/
def deleteMapById (mapId : ℕ) (db : Database) : Database :=
  { db with maps := db.maps.filter (fun m => m.id != mapId) }

/-- `db.deleteRiskMap(mapId)` (`server/db.ts`): delete all risks of the map
first, then delete the map row. -/
def deleteRiskMap (mapId : ℕ) (db : Database) : Database :=
  deleteMapById mapId (deleteRisksByMapId mapId db)

/-- `db.deleteRisk(riskId)` (`server/db.ts`). -/
def deleteRisk (riskId : ℕ) (db : Database) : Database :=
  { db with risks := db.risks.filter (fun r => r.id != riskId) }

/-- The store's read-record-by-id view of the `risks` table: the row the
`WHERE id = ?` clauses of `updateRiskPosition` / `updateRisk` /
`deleteRisk` (`server/db.ts`) operate on. -/
def findRisk (riskId : ℕ) (db : Database) : Option RiskRow :=
  db.risks.find? (fun r => r.id == riskId)

/-! ## tRPC router wrappers (`server/routers.ts`) -/

/-- Procedure `riskMaps.get`: forwards to
`db.getRiskMapWithRisks(input.mapId, ctx.user.id)`. -/
def routerGetMap (callerId mapId : ℕ) (db : Database) :
    Option (RiskMapRow × List RiskRow) :=
  getRiskMapWithRisks mapId callerId db

/-- Procedure `riskMaps.delete`: calls `db.deleteRiskMap(input.mapId)`.
The authenticated caller's id (`ctx.user`) is available to the procedure
but is **not** passed to, or consulted by, the deletion. -/
def routerDeleteMap (callerId mapId : ℕ) (db : Database) : Database :=
  deleteRiskMap mapId db

/-- Procedure `risks.add`: calls `db.addRisk` with the parsed input and
fails only when the store returns no `insertId`.  The caller's id is not
consulted, and no map-existence check is made. -/
def routerAddRisk (callerId : ℕ) (input : InsertRisk) (db : Database) :
    Except String (Database × ℕ) :=
  let result := addRisk input db
  if result.2 = 0 then
    Except.error "Failed to create risk map: no insertId returned"
  else
    Except.ok result

/-! ## Concrete store states used as test fixtures -/

/-- A fresh store (MySQL auto-increment counters start at 1). -/
def emptyDb : Database := ⟨[], [], 1, 1⟩

/-- Map id 7 owned by user 1 (the scenario of `riskMaps.test.ts`). -/
def user1Map : RiskMapRow :=
  ⟨7, 1, "Office", "10-person office", "<svg></svg>", 1000, 800⟩

/-- A risk of map 7. -/
def user1Risk : RiskRow :=
  ⟨1, 7, "ergonomic", "high", "Poor Posture", none, 100, 100, 30, "#6BCB77"⟩

/-- A store holding user 1's map 7 and its one risk. -/
def dbUser1 : Database := ⟨[user1Map], [user1Risk], 8, 2⟩

/-- A `risks.add` input whose `mapId` (5) references no existing map. -/
def orphanRiskInput : InsertRisk :=
  ⟨5, "ergonomic", "high", "Poor Posture", none, 100, 100, 30, "#6BCB77"⟩

/-! ## `useDebounce` (client hook), as an event-timeline semantics

The hook keeps one pending-timer slot (`timeoutRef`).  Each call to the
debounced wrapper clears the pending timer (if any) and schedules
`callback(...args)` at `now + delay`; the `useEffect` cleanup clears the
pending timer on consumer teardown.  We model a single-threaded timeline:
a sorted list of wrapper calls, an optional teardown instant, and the
pending slot; a pending timer fires once its due time is reached before
the next event. -/

/-- One call of the debounced wrapper at time `time` with arguments
`args`. -/
structure DebCall (α : Type) where
  time : ℕ
  args : α
deriving DecidableEq, Repr

/-- Run the debounce timeline: process the (time-sorted) wrapper calls,
then the optional teardown at `tear`, then let time run out.  `pending`
is the `timeoutRef` slot as a `(dueTime, args)` pair.  Returns the list
of `(time, args)` invocations of the underlying callback, in order. -/
def debounceRun (delay : ℕ) :
    List (DebCall α) → Option ℕ → Option (ℕ × α) → List (ℕ × α)
  | [], tear, pending =>
    match tear, pending with
    | some tt, some (ft, a) => if ft ≤ tt then [(ft, a)] else []
    | some _, none => []
    | none, some (ft, a) => [(ft, a)]
    | none, none => []
  | c :: rest, tear, pending =>
    let fired : List (ℕ × α) :=
      match pending with
      | some (ft, a) => if ft ≤ c.time then [(ft, a)] else []
      | none => []
    fired ++ debounceRun delay rest tear (some (c.time + delay, c.args))

/-- The strict-ordering-and-gap condition on consecutive wrapper calls:
times strictly increase and each gap is shorter than `delay`. -/
def DebGaps (delay : ℕ) (calls : List (DebCall α)) : Prop :=
  List.Chain' (fun p q => p.time < q.time ∧ q.time < p.time + delay) calls

instance (delay : ℕ) (calls : List (DebCall α)) :
    Decidable (DebGaps delay calls) :=
  inferInstanceAs (Decidable (List.Chain'
    (fun (p q : DebCall α) => p.time < q.time ∧ q.time < p.time + delay) calls))

/-- The observable outcome of one debounced burst whose last wrapper call
happened at `lt` with arguments `la`: with no teardown the callback fires
once at `lt + delay`; a teardown strictly before that instant cancels it. -/
def debounceExpected (delay lt : ℕ) (la : α) : Option ℕ → List (ℕ × α)
  | none => [(lt + delay, la)]
  | some tt => if lt + delay ≤ tt then [(lt + delay, la)] else []

/-! ## `identifyRisks` response handling (`server/llm-helpers.ts`)

Only the post-response parsing stage is embedded (the network call is an
external collaborator).  The source reads
`response.choices[0]?.message.content`, coerces any non-string content to
the literal `"[]"`, and feeds the result to `JSON.parse` with a
compile-time-only cast (`as IdentifiedRisk[]`) — no runtime schema
validation. -/

/-- The `message.content` field of a chat completion: a string, or any
non-string payload (null, array of content parts, ...). -/
inductive MessageContent where
  | str (s : String)
  | nonString
deriving DecidableEq, Repr

/-- Line 136 of `server/llm-helpers.ts`:
`typeof messageContent === 'string' ? messageContent : "[]"`.
`Option.none` models a missing `choices[0]`. -/
def identifyRisksContent : Option MessageContent → String
  | some (MessageContent.str s) => s
  | _ => "[]"

/-- A JSON value (the result of `JSON.parse`), with numerals restricted to
integers. -/
inductive Json where
  | null
  | bool (b : Bool)
  | num (n : ℤ)
  | str (s : String)
  | arr (xs : List Json)
  | obj (fields : List (String × Json))

/-- JSON insignificant whitespace. -/
def jsonWs (c : Char) : Bool :=
  c = ' ' ∨ c = '\n' ∨ c = '\t' ∨ c = '\r'

/-- Drop leading JSON whitespace. -/
def skipWs : List Char → List Char
  | c :: rest => if jsonWs c then skipWs rest else c :: rest
  | [] => []

/-- Opening brace character of a JSON object. -/
def braceL : Char := Char.ofNat 123

/-- Closing brace character of a JSON object. -/
def braceR : Char := Char.ofNat 125

/-- Parse the body of a JSON string literal (after the opening quote),
supporting the basic escapes; returns the string and the remaining
input. -/
def parseStringBody : List Char → Option (String × List Char)
  | [] => none
  | c :: rest =>
    if c = '"' then some ("", rest)
    else if c = '\\' then
      match rest with
      | e :: rest2 =>
        let esc : Option Char :=
          if e = '"' then some '"'
          else if e = '\\' then some '\\'
          else if e = '/' then some '/'
          else if e = 'n' then some '\n'
          else if e = 't' then some '\t'
          else if e = 'r' then some '\r'
          else none
        match esc with
        | some ec =>
          match parseStringBody rest2 with
          | some (s, rem) => some (⟨ec :: s.data⟩, rem)
          | none => none
        | none => none
      | [] => none
    else
      match parseStringBody rest with
      | some (s, rem) => some (⟨c :: s.data⟩, rem)
      | none => none

/-- Parse a run of decimal digits into a natural numeral. -/
def parseDigits (acc : ℕ) : List Char → ℕ × List Char
  | c :: rest =>
    if c.isDigit then parseDigits (acc * 10 + (c.toNat - 48)) rest
    else (acc, c :: rest)
  | [] => (acc, [])

mutual

/-- Fuel-indexed JSON value parser (model of the `JSON.parse` builtin on
the grammar fragment described above). -/
def parseJsonValue : ℕ → List Char → Option (Json × List Char)
  | 0, _ => none
  | fuel + 1, input =>
    match skipWs input with
    | [] => none
    | c :: rest =>
      if c = 'n' then
        match rest with
        | 'u' :: 'l' :: 'l' :: rem => some (Json.null, rem)
        | _ => none
      else if c = 't' then
        match rest with
        | 'r' :: 'u' :: 'e' :: rem => some (Json.bool true, rem)
        | _ => none
      else if c = 'f' then
        match rest with
        | 'a' :: 'l' :: 's' :: 'e' :: rem => some (Json.bool false, rem)
        | _ => none
      else if c = '"' then
        match parseStringBody rest with
        | some (s, rem) => some (Json.str s, rem)
        | none => none
      else if c = '-' then
        match rest with
        | d :: _ =>
          if d.isDigit then
            let (n, rem) := parseDigits 0 rest
            some (Json.num (-(n : ℤ)), rem)
          else none
        | [] => none
      else if c.isDigit then
        let (n, rem) := parseDigits 0 (c :: rest)
        some (Json.num (n : ℤ), rem)
      else if c = '[' then
        match skipWs rest with
        | ']' :: rem => some (Json.arr [], rem)
        | rest2 => match parseJsonItems fuel rest2 with
          | some (xs, rem) => some (Json.arr xs, rem)
          | none => none
      else if c = braceL then
        match skipWs rest with
        | d :: rem =>
          if d = braceR then some (Json.obj [], rem)
          else match parseJsonFields fuel (d :: rem) with
            | some (fs, rem2) => some (Json.obj fs, rem2)
            | none => none
        | [] => none
      else none

/-- Parse one-or-more comma-separated array items up to `]`. -/
def parseJsonItems : ℕ → List Char → Option (List Json × List Char)
  | 0, _ => none
  | fuel + 1, input =>
    match parseJsonValue fuel input with
    | some (v, rest) =>
      match skipWs rest with
      | ',' :: rest2 =>
        match parseJsonItems fuel rest2 with
        | some (vs, rem) => some (v :: vs, rem)
        | none => none
      | ']' :: rem => some ([v], rem)
      | _ => none
    | none => none

/-- Parse one-or-more comma-separated `"key": value` object fields up to
the closing brace. -/
def parseJsonFields : ℕ → List Char → Option (List (String × Json) × List Char)
  | 0, _ => none
  | fuel + 1, input =>
    match skipWs input with
    | '"' :: rest =>
      match parseStringBody rest with
      | some (k, rest2) =>
        match skipWs rest2 with
        | ':' :: rest3 =>
          match parseJsonValue fuel rest3 with
          | some (v, rest4) =>
            match skipWs rest4 with
            | ',' :: rest5 =>
              match parseJsonFields fuel rest5 with
              | some (fs, rem) => some ((k, v) :: fs, rem)
              | none => none
            | d :: rem =>
              if d = braceR then some ([(k, v)], rem) else none
            | [] => none
          | none => none
        | _ => none
      | none => none
    | _ => none

end

/-- Model of the `JSON.parse` builtin: parse a complete JSON document,
rejecting trailing garbage (`none` models a thrown `SyntaxError`). -/
def jsonParse (s : String) : Option Json :=
  match parseJsonValue (2 * s.length + 2) s.data with
  | some (v, rest) => if skipWs rest = [] then some v else none
  | none => none

/-- Lines 135–137 of `server/llm-helpers.ts`: coerce the message content,
then `JSON.parse` it.  `Except.error` models a thrown exception; the
`as IdentifiedRisk[]` cast performs no runtime validation, so the parsed
value is returned as-is. -/
def identifyRisksParse (mc : Option MessageContent) : Except String Json :=
  match jsonParse (identifyRisksContent mc) with
  | some v => Except.ok v
  | none => Except.error "SyntaxError: Unexpected token in JSON"

end Riskia

namespace Riskia

/-! ## Basic facts about the layout arithmetic -/

theorem ceilSqrt_spec (n : ℕ) (hn : 1 ≤ n) :
    n ≤ ceilSqrt n * ceilSqrt n ∧ ∀ c : ℕ, n ≤ c * c → ceilSqrt n ≤ c := by
  have hn0 : n ≠ 0 := Nat.one_le_iff_ne_zero.mp hn
  unfold ceilSqrt
  rw [if_neg hn0]
  constructor
  · have h := Nat.lt_succ_sqrt (n - 1)
    simp only [Nat.succ_eq_add_one] at h
    omega
  · intro c hc
    have hlt : n - 1 < c * c := by omega
    have := Nat.sqrt_lt.mpr hlt
    omega

theorem ceilDiv_spec (a b : ℕ) (hb : 1 ≤ b) :
    a ≤ b * ceilDiv a b ∧ ∀ r : ℕ, a ≤ b * r → ceilDiv a b ≤ r := by
  have hb0 : 0 < b := hb
  constructor
  · have h1 : a + b - 1 < (ceilDiv a b + 1) * b :=
      (Nat.div_lt_iff_lt_mul hb0).mp (by unfold ceilDiv; omega)
    have he : (ceilDiv a b + 1) * b = b * ceilDiv a b + b := by ring
    omega
  · intro r hr
    have he : (r + 1) * b = b * r + b := by ring
    have h2 : a + b - 1 < (r + 1) * b := by omega
    have h3 := (Nat.div_lt_iff_lt_mul hb0).mpr h2
    unfold ceilDiv
    omega

theorem one_le_ceilSqrt (n : ℕ) (hn : 1 ≤ n) : 1 ≤ ceilSqrt n := by
  unfold ceilSqrt
  rw [if_neg (by omega)]
  omega

theorem one_le_ceilDiv (a b : ℕ) (ha : 1 ≤ a) (hb : 1 ≤ b) : 1 ≤ ceilDiv a b := by
  unfold ceilDiv
  rw [Nat.one_le_div_iff hb]
  omega

/-! ## C2 — server and client color lookups -/

/-- C2 counterexample: the claim says the server-side `getRiskTypeColor`
and the client-side `getRiskColor` return the same RGB string for every
category of the closed enumeration; already at `"acidental"` the server
returns `"#3B82F6"` while the client returns `"#FF6B6B"`. -/
theorem getRiskTypeColor_ne_getRiskColor_on_acidental :
    getRiskTypeColor "acidental" = "#3B82F6" ∧
    getRiskColor "acidental" = "#FF6B6B" ∧
    getRiskTypeColor "acidental" ≠ getRiskColor "acidental" := by
  refine ⟨rfl, rfl, ?_⟩
  decide

/-- C2 (amended): each lookup is a deterministic pure fixed table and both
map every unknown category to the neutral gray `"#999999"`, but the server
table and the client table disagree on every one of the five categories of
the closed enumeration. -/
theorem colorForCategory_tables_fixed_but_disagree :
    (∀ t ∈ riskTypeEnum, getRiskTypeColor t ≠ getRiskColor t) ∧
    (∀ t, t ∉ riskTypeEnum →
      getRiskTypeColor t = "#999999" ∧ getRiskColor t = "#999999") := by
  constructor
  · decide
  · intro t ht
    simp only [riskTypeEnum, List.mem_cons, List.not_mem_nil, or_false,
      not_or] at ht
    obtain ⟨h1, h2, h3, h4, h5⟩ := ht
    constructor <;> simp [getRiskTypeColor, getRiskColor, h1, h2, h3, h4, h5]

/-- Witness for the amended C2 theorem at the concrete unknown category
`"radiological"`. -/
theorem colorForCategory_tables_fixed_but_disagree_witness :
    getRiskTypeColor "radiological" = "#999999" ∧
    getRiskColor "radiological" = "#999999" :=
  colorForCategory_tables_fixed_but_disagree.2 "radiological" (by decide)


/-! ## C3 — the grid formula of `generateDistributedPosition` -/

/-- C3: for `total ≥ 1`, `index < total` and jitter in `[-20, 20]` on each
axis, `generateDistributedPosition` uses `columns = ceilSqrt total` — the
least `c` with `total ≤ c²`, i.e. the ceiling of `√total` — and
`rows = ceilDiv total columns` — the least `r` with `total ≤ columns·r`,
i.e. the ceiling of `total / columns` — and produces, before clamping, the
center of grid cell `(index mod columns, index div columns)` with cell
sizes `(W - 200)/columns` and `(H - 200)/rows`, padding 100, offset by
`(jx, jy)`. -/
theorem generateDistributedPosition_formula (index total : ℕ) (W H jx jy : ℚ)
    (htotal : 1 ≤ total) (hindex : index < total)
    (hjx₁ : -20 ≤ jx) (hjx₂ : jx ≤ 20) (hjy₁ : -20 ≤ jy) (hjy₂ : jy ≤ 20) :
    (total ≤ ceilSqrt total * ceilSqrt total ∧
      ∀ c : ℕ, total ≤ c * c → ceilSqrt total ≤ c) ∧
    (total ≤ ceilSqrt total * ceilDiv total (ceilSqrt total) ∧
      ∀ r : ℕ, total ≤ ceilSqrt total * r → ceilDiv total (ceilSqrt total) ≤ r) ∧
    generateDistributedPosition index total W H jx jy =
      { xPosition := max 50 (min (W - 50)
          (100 + (index % ceilSqrt total : ℕ) * ((W - 200) / (ceilSqrt total : ℕ))
            + ((W - 200) / (ceilSqrt total : ℕ)) / 2 + jx)),
        yPosition := max 50 (min (H - 50)
          (100 + (index / ceilSqrt total : ℕ) *
              ((H - 200) / (ceilDiv total (ceilSqrt total) : ℕ))
            + ((H - 200) / (ceilDiv total (ceilSqrt total) : ℕ)) / 2 + jy)) } := by
  refine ⟨ceilSqrt_spec total htotal,
    ceilDiv_spec total (ceilSqrt total) (one_le_ceilSqrt total htotal), ?_⟩
  unfold generateDistributedPosition gridCenter
  norm_num

/-- Witness for C3 at `index = 1`, `total = 3`, canvas `1000 × 800`,
zero jitter. -/
theorem generateDistributedPosition_formula_witness :
    3 ≤ ceilSqrt 3 * ceilSqrt 3 ∧
    generateDistributedPosition 1 3 1000 800 0 0 =
      { xPosition := max 50 (min (1000 - 50)
          (100 + (1 % ceilSqrt 3 : ℕ) * ((1000 - 200) / (ceilSqrt 3 : ℕ))
            + ((1000 - 200) / (ceilSqrt 3 : ℕ)) / 2 + 0)),
        yPosition := max 50 (min (800 - 50)
          (100 + (1 / ceilSqrt 3 : ℕ) * ((800 - 200) / (ceilDiv 3 (ceilSqrt 3) : ℕ))
            + ((800 - 200) / (ceilDiv 3 (ceilSqrt 3) : ℕ)) / 2 + 0)) } := by
  have h := generateDistributedPosition_formula 1 3 1000 800 0 0
    (by norm_num) (by norm_num) (by norm_num) (by norm_num) (by norm_num) (by norm_num)
  exact ⟨h.1.1, h.2.2⟩


/-! ## C4 — clamping and the canvas-margin guarantee -/

/-- C4 counterexample: the claim quantifies over every canvas size, but on
a `60 × 60` canvas the clamp `Math.max(50, Math.min(W - 50, x))` returns
`50`, which lies outside `[50, W - 50] = [50, 10]` — the interval is
empty, so no return value could lie in it. -/
theorem generateDistributedPosition_escapes_small_canvas :
    (generateDistributedPosition 0 1 60 60 0 0).xPosition = 50 ∧
    ¬ (generateDistributedPosition 0 1 60 60 0 0).xPosition ≤ 60 - 50 := by
  constructor <;>
    norm_num [generateDistributedPosition, gridCenter, ceilSqrt, ceilDiv,
      min_def, max_def]

/-- C4 (amended): for every canvas size with `W ≥ 100` and `H ≥ 100` (so
that the clamp interval is nonempty), every `total ≥ 1`, every
`index < total` and every jitter outcome, the returned coordinates lie in
`[50, W - 50] × [50, H - 50]`. -/
theorem generateDistributedPosition_in_bounds (index total : ℕ)
    (W H jx jy : ℚ) (hW : 100 ≤ W) (hH : 100 ≤ H)
    (htotal : 1 ≤ total) (hindex : index < total) :
    50 ≤ (generateDistributedPosition index total W H jx jy).xPosition ∧
    (generateDistributedPosition index total W H jx jy).xPosition ≤ W - 50 ∧
    50 ≤ (generateDistributedPosition index total W H jx jy).yPosition ∧
    (generateDistributedPosition index total W H jx jy).yPosition ≤ H - 50 := by
  unfold generateDistributedPosition
  refine ⟨le_max_left _ _, max_le (by linarith) (min_le_left _ _),
    le_max_left _ _, max_le (by linarith) (min_le_left _ _)⟩

/-- Witness for the amended C4 theorem on a `1000 × 800` canvas with an
extreme jitter draw. -/
theorem generateDistributedPosition_in_bounds_witness :
    50 ≤ (generateDistributedPosition 4 5 1000 800 20 (-20)).xPosition ∧
    (generateDistributedPosition 4 5 1000 800 20 (-20)).xPosition ≤ 1000 - 50 ∧
    50 ≤ (generateDistributedPosition 4 5 1000 800 20 (-20)).yPosition ∧
    (generateDistributedPosition 4 5 1000 800 20 (-20)).yPosition ≤ 800 - 50 :=
  generateDistributedPosition_in_bounds 4 5 1000 800 20 (-20)
    (by norm_num) (by norm_num) (by norm_num) (by norm_num)

/-! ## C5 — distinct pre-jitter grid centers -/

/-- C5: distinct indices below `total` receive distinct pre-jitter,
pre-clamp grid-cell centers.  The hypotheses `W ≠ 200`, `H ≠ 200` state
that the canvas leaves a nonzero cell size after the `2 · 100` padding is
removed; every canvas the client ever uses is `1000 × 800`. -/
theorem gridCenter_pairwise_distinct (total i j : ℕ) (W H : ℚ)
    (hW : W ≠ 200) (hH : H ≠ 200)
    (hi : i < total) (hj : j < total) (hij : i ≠ j) :
    gridCenter i total W H ≠ gridCenter j total W H := by
  intro heq
  have htotal : 1 ≤ total := by omega
  have hcols : 1 ≤ ceilSqrt total := one_le_ceilSqrt total htotal
  have hrows : 1 ≤ ceilDiv total (ceilSqrt total) :=
    one_le_ceilDiv total (ceilSqrt total) htotal hcols
  have hcolsQ : ((ceilSqrt total : ℕ) : ℚ) ≠ 0 :=
    Nat.cast_ne_zero.mpr (by omega)
  have hrowsQ : ((ceilDiv total (ceilSqrt total) : ℕ) : ℚ) ≠ 0 :=
    Nat.cast_ne_zero.mpr (by omega)
  have hcw : (W - 100 * 2) / ((ceilSqrt total : ℕ) : ℚ) ≠ 0 :=
    div_ne_zero (by intro h; apply hW; linarith [sub_eq_zero.mp h]) hcolsQ
  have hch : (H - 100 * 2) / ((ceilDiv total (ceilSqrt total) : ℕ) : ℚ) ≠ 0 :=
    div_ne_zero (by intro h; apply hH; linarith [sub_eq_zero.mp h]) hrowsQ
  simp only [gridCenter, Prod.mk.injEq] at heq
  obtain ⟨hx, hy⟩ := heq
  have hcol : ((i % ceilSqrt total : ℕ) : ℚ) = ((j % ceilSqrt total : ℕ) : ℚ) := by
    have h1 : ((i % ceilSqrt total : ℕ) : ℚ) *
        ((W - 100 * 2) / ((ceilSqrt total : ℕ) : ℚ)) =
        ((j % ceilSqrt total : ℕ) : ℚ) *
        ((W - 100 * 2) / ((ceilSqrt total : ℕ) : ℚ)) := by linarith
    exact mul_right_cancel₀ hcw h1
  have hrow : ((i / ceilSqrt total : ℕ) : ℚ) = ((j / ceilSqrt total : ℕ) : ℚ) := by
    have h1 : ((i / ceilSqrt total : ℕ) : ℚ) *
        ((H - 100 * 2) / ((ceilDiv total (ceilSqrt total) : ℕ) : ℚ)) =
        ((j / ceilSqrt total : ℕ) : ℚ) *
        ((H - 100 * 2) / ((ceilDiv total (ceilSqrt total) : ℕ) : ℚ)) := by linarith
    exact mul_right_cancel₀ hch h1
  have hcol' : i % ceilSqrt total = j % ceilSqrt total := by exact_mod_cast hcol
  have hrow' : i / ceilSqrt total = j / ceilSqrt total := by exact_mod_cast hrow
  have hdi := Nat.div_add_mod i (ceilSqrt total)
  have hdj := Nat.div_add_mod j (ceilSqrt total)
  rw [hcol', hrow'] at hdi
  apply hij
  omega

/-- Witness for C5: indices 0 and 1 of 5 markers on the `1000 × 800`
canvas receive different centers. -/
theorem gridCenter_pairwise_distinct_witness :
    gridCenter 0 5 1000 800 ≠ gridCenter 1 5 1000 800 :=
  gridCenter_pairwise_distinct 5 0 1 1000 800 (by norm_num) (by norm_num)
    (by norm_num) (by norm_num) (by norm_num)


/-! ## Shared store lemmas -/

theorem deleteRiskMap_risks_eq (db : Database) (mapId : ℕ) :
    (deleteRiskMap mapId db).risks =
      db.risks.filter (fun r => r.mapId != mapId) := rfl

theorem deleteRiskMap_maps_find?_none (db : Database) (mapId : ℕ) :
    (deleteRiskMap mapId db).maps.find? (fun m => m.id == mapId) = none := by
  rw [List.find?_eq_none]
  intro m hm
  have h := (List.mem_filter.mp hm).2
  simp only [bne_iff_ne, ne_eq, decide_eq_true_eq] at h
  simp [h]

theorem getRiskMapWithRisks_after_deleteRiskMap (db : Database)
    (mapId u : ℕ) :
    getRiskMapWithRisks mapId u (deleteRiskMap mapId db) = none := by
  unfold getRiskMapWithRisks
  rw [deleteRiskMap_maps_find?_none]

/-! ## C1 — `getMap` leaks no existence information -/

/-- C1: `getRiskMapWithRisks` returns the very same `none` (the `null`
that the `riskMaps.get` procedure surfaces as `NotFound`) both when no
map row with the requested id exists and when the selected row belongs
to a different owner, so a caller cannot distinguish the two cases. -/
theorem getMap_notFound_indistinguishable (db : Database)
    (mapId callerId : ℕ) :
    ((∀ m ∈ db.maps, m.id ≠ mapId) →
      getRiskMapWithRisks mapId callerId db = none) ∧
    (∀ m, db.maps.find? (fun x => x.id == mapId) = some m →
      m.userId ≠ callerId →
      getRiskMapWithRisks mapId callerId db = none) := by
  constructor
  · intro h
    unfold getRiskMapWithRisks
    have hfind : db.maps.find? (fun m => m.id == mapId) = none := by
      rw [List.find?_eq_none]
      intro m hm
      simp [h m hm]
    rw [hfind]
  · intro m hm hne
    unfold getRiskMapWithRisks
    rw [hm]
    simp [hne]

/-- Witness for C1: in the store holding only user 1's map 7, caller 2
gets the same `none` for the foreign map 7 as for the nonexistent map
999. -/
theorem getMap_notFound_indistinguishable_witness :
    getRiskMapWithRisks 999 2 dbUser1 = none ∧
    getRiskMapWithRisks 7 2 dbUser1 = none ∧
    getRiskMapWithRisks 7 1 dbUser1 ≠ none := by
  refine ⟨(getMap_notFound_indistinguishable dbUser1 999 2).1 (by decide),
    (getMap_notFound_indistinguishable dbUser1 7 2).2 user1Map (by decide)
      (by decide), by decide⟩


/-! ## C7 — cascade deletion order and postconditions -/

/-- C7: `deleteRiskMap` is exactly the risk deletion followed by the map
deletion (so the intermediate state keeps every map row but already no
risk of the map), and afterwards the map reads as `NotFound` for every
caller while no risk that referenced it remains retrievable by id
(`hids` is the primary-key uniqueness of risk ids, which the real store
guarantees). -/
theorem deleteRiskMap_cascade (db : Database) (mapId : ℕ)
    (hids : db.risks.Pairwise (fun r s => r.id ≠ s.id)) :
    deleteRiskMap mapId db =
      deleteMapById mapId (deleteRisksByMapId mapId db) ∧
    (deleteRisksByMapId mapId db).maps = db.maps ∧
    (∀ r ∈ (deleteRisksByMapId mapId db).risks, r.mapId ≠ mapId) ∧
    (∀ callerId,
      getRiskMapWithRisks mapId callerId (deleteRiskMap mapId db) = none) ∧
    (∀ r ∈ db.risks, r.mapId = mapId →
      findRisk r.id (deleteRiskMap mapId db) = none) := by
  refine ⟨rfl, rfl, ?_, fun c => getRiskMapWithRisks_after_deleteRiskMap db mapId c, ?_⟩
  · intro r hr
    have h := (List.mem_filter.mp hr).2
    simpa only [bne_iff_ne, ne_eq, decide_eq_true_eq] using h
  · intro r hr hmap
    unfold findRisk
    rw [deleteRiskMap_risks_eq, List.find?_eq_none]
    intro x hx
    obtain ⟨hxmem, hxkeep⟩ := List.mem_filter.mp hx
    have hxne : x.mapId ≠ mapId := by
      simpa only [bne_iff_ne, ne_eq, decide_eq_true_eq] using hxkeep
    simp only [beq_iff_eq, decide_eq_true_eq]
    intro hid
    rcases eq_or_ne x r with rfl | hxr
    · exact hxne hmap
    · have hsymm : Symmetric fun (r s : RiskRow) => r.id ≠ s.id := by
        intro a b h hba
        exact h hba.symm
      exact (hids.forall hsymm hxmem hr hxr) hid


/-- Witness for C7 on the concrete store `dbUser1`. -/
theorem deleteRiskMap_cascade_witness :
    (∀ callerId, getRiskMapWithRisks 7 callerId (deleteRiskMap 7 dbUser1) = none) ∧
    findRisk user1Risk.id (deleteRiskMap 7 dbUser1) = none := by
  have h := deleteRiskMap_cascade dbUser1 7 (by decide)
  exact ⟨h.2.2.2.1, h.2.2.2.2 user1Risk (by decide) (by decide)⟩

/-! ## C8 — `risks.add` does not validate the map reference -/

/-- C8 counterexample: on a fresh store with **no** maps at all, adding a
risk whose `mapId` is 5 does not fail with `InvalidInput` (or at all): it
returns `insertId` 1 and inserts a risk row referencing the nonexistent
map 5. -/
theorem routerAddRisk_succeeds_on_nonexistent_map :
    emptyDb.maps = [] ∧
    routerAddRisk 1 orphanRiskInput emptyDb =
      Except.ok
        (⟨[], [⟨1, 5, "ergonomic", "high", "Poor Posture", none,
            100, 100, 30, "#6BCB77"⟩], 1, 2⟩, 1) := by
  constructor
  · rfl
  · rfl

/-- C8 (amended): `risks.add` performs no existence check on `mapId`: for
every store whose auto-increment counter is nonzero (as in MySQL, where it
starts at 1) and every input, the call succeeds and appends the risk row —
regardless of whether any map with `input.mapId` exists. -/
theorem routerAddRisk_inserts_unconditionally (callerId : ℕ)
    (input : InsertRisk) (db : Database) (hid : db.nextRiskId ≠ 0) :
    routerAddRisk callerId input db =
      Except.ok
        ({ db with
            risks := db.risks ++ [⟨db.nextRiskId, input.mapId, input.rtype,
              input.severity, input.label, input.description,
              input.xPosition, input.yPosition, input.radius, input.color⟩],
            nextRiskId := db.nextRiskId + 1 }, db.nextRiskId) := by
  unfold routerAddRisk addRisk
  simp [hid]

/-- Witness for the amended C8 theorem: the orphan insert on the fresh
store. -/
theorem routerAddRisk_inserts_unconditionally_witness :
    routerAddRisk 1 orphanRiskInput emptyDb =
      Except.ok
        ({ emptyDb with
            risks := emptyDb.risks ++ [⟨emptyDb.nextRiskId,
              orphanRiskInput.mapId, orphanRiskInput.rtype,
              orphanRiskInput.severity, orphanRiskInput.label,
              orphanRiskInput.description, orphanRiskInput.xPosition,
              orphanRiskInput.yPosition, orphanRiskInput.radius,
              orphanRiskInput.color⟩],
            nextRiskId := emptyDb.nextRiskId + 1 }, emptyDb.nextRiskId) :=
  routerAddRisk_inserts_unconditionally 1 orphanRiskInput emptyDb (by decide)

/-! ## C9 — `riskMaps.delete` ignores ownership -/

/-- C9 counterexample: map 7 is owned by user 1, yet the `riskMaps.delete`
procedure invoked by the different authenticated user 2 deletes the map
row and its risk — the claim says they must not be deleted. -/
theorem routerDeleteMap_by_non_owner_deletes :
    user1Map.userId = 1 ∧
    (2 : ℕ) ≠ 1 ∧
    (routerDeleteMap 2 7 dbUser1).maps = [] ∧
    (routerDeleteMap 2 7 dbUser1).risks = [] := by
  decide

/-- C9 (amended): the `riskMaps.delete` procedure performs no ownership
check at all — its result is independent of the authenticated caller's
id, and after any caller invokes it the map reads as `NotFound` for every
user and no risk row referencing it survives. -/
theorem routerDeleteMap_ignores_caller (callerId otherCallerId mapId : ℕ)
    (db : Database) :
    routerDeleteMap callerId mapId db = routerDeleteMap otherCallerId mapId db ∧
    (∀ u, getRiskMapWithRisks mapId u (routerDeleteMap callerId mapId db) = none) ∧
    (∀ r ∈ (routerDeleteMap callerId mapId db).risks, r.mapId ≠ mapId) := by
  refine ⟨rfl, fun u => getRiskMapWithRisks_after_deleteRiskMap db mapId u, ?_⟩
  intro r hr
  have h := (List.mem_filter.mp hr).2
  simpa only [bne_iff_ne, ne_eq, decide_eq_true_eq] using h


/-! ## C6 — the debounced wrapper delivers only the last call -/

theorem debounceRun_with_pending (delay : ℕ) (prev : DebCall α)
    (calls : List (DebCall α)) (tear : Option ℕ)
    (h : DebGaps delay (prev :: calls)) :
    debounceRun delay calls tear (some (prev.time + delay, prev.args)) =
      debounceExpected delay (calls.getLastD prev).time
        (calls.getLastD prev).args tear := by
  induction calls generalizing prev with
  | nil =>
    cases tear with
    | none => rfl
    | some tt => rfl
  | cons c rest ih =>
    have h1 : prev.time < c.time ∧ c.time < prev.time + delay :=
      (List.chain'_cons.mp h).1
    have h2 : DebGaps delay (c :: rest) := (List.chain'_cons.mp h).2
    show (if prev.time + delay ≤ c.time then [(prev.time + delay, prev.args)]
        else []) ++
        debounceRun delay rest tear (some (c.time + delay, c.args)) = _
    rw [if_neg (by omega), List.nil_append, ih c h2, List.getLastD_cons]

/-- C6: a burst of `K ≥ 1` wrapper calls in which every consecutive gap is
shorter than `delay` produces exactly one invocation of the underlying
callback, fired `delay` after the last call and carrying the last call's
arguments — every earlier call's arguments are discarded — and a consumer
teardown strictly before that firing instant cancels it, so the callback
is never invoked. -/
theorem useDebounce_last_call_wins (delay : ℕ) (hdelay : 0 < delay)
    (first : DebCall α) (rest : List (DebCall α))
    (h : DebGaps delay (first :: rest)) :
    debounceRun delay (first :: rest) none none =
      [((rest.getLastD first).time + delay, (rest.getLastD first).args)] ∧
    ∀ tt, tt < (rest.getLastD first).time + delay →
      debounceRun delay (first :: rest) (some tt) none = [] := by
  have key : ∀ tear, debounceRun delay (first :: rest) tear none =
      debounceExpected delay (rest.getLastD first).time
        (rest.getLastD first).args tear := by
    intro tear
    show ([] : List (ℕ × α)) ++
        debounceRun delay rest tear (some (first.time + delay, first.args)) = _
    rw [List.nil_append, debounceRun_with_pending delay first rest tear h]
  constructor
  · exact key none
  · intro tt htt
    rw [key (some tt)]
    show (if (rest.getLastD first).time + delay ≤ tt
        then [((rest.getLastD first).time + delay, (rest.getLastD first).args)]
        else []) = []
    rw [if_neg (by omega)]

/-- Witness for C6: three calls at times 0, 1, 2 with `delay = 5` yield the
single invocation `(7, "c")`; a teardown at time 4 cancels it. -/
theorem useDebounce_last_call_wins_witness :
    debounceRun 5 [(⟨0, "a"⟩ : DebCall String), ⟨1, "b"⟩, ⟨2, "c"⟩] none none =
      [(7, "c")] ∧
    debounceRun 5 [(⟨0, "a"⟩ : DebCall String), ⟨1, "b"⟩, ⟨2, "c"⟩] (some 4) none =
      [] := by
  have hgaps : DebGaps 5 [(⟨0, "a"⟩ : DebCall String), ⟨1, "b"⟩, ⟨2, "c"⟩] := by
    unfold DebGaps
    refine List.chain'_cons.mpr ⟨⟨by norm_num, by norm_num⟩,
      List.chain'_cons.mpr ⟨⟨by norm_num, by norm_num⟩, ?_⟩⟩
    exact List.chain'_singleton _
  have h := useDebounce_last_call_wins 5 (by norm_num) (⟨0, "a"⟩ : DebCall String)
    [⟨1, "b"⟩, ⟨2, "c"⟩] hgaps
  exact ⟨h.1, h.2 4 (by norm_num)⟩

/-! ## C10 — non-string generation responses are coerced, not rejected -/

/-- C10 counterexample: a Generation Service response whose message
content is not a string (and likewise a response with no choice at all)
does **not** raise: `identifyRisks` coerces the content to the literal
`"[]"`, `JSON.parse` succeeds on it, and the empty hazard list is
returned. -/
theorem identifyRisks_nonString_returns_empty :
    identifyRisksParse (some MessageContent.nonString) =
      Except.ok (Json.arr []) ∧
    identifyRisksParse none = Except.ok (Json.arr []) := by
  exact ⟨rfl, rfl⟩

/-- C10 (amended): only a *string* message content that fails to parse as
JSON raises; every response whose message content is not a string is
silently coerced to `"[]"` and yields the empty hazard list with no
error. -/
theorem identifyRisks_silently_coerces_nonString (mc : Option MessageContent)
    (h : ∀ s, mc ≠ some (MessageContent.str s)) :
    identifyRisksParse mc = Except.ok (Json.arr []) := by
  match mc with
  | none => rfl
  | some MessageContent.nonString => rfl
  | some (MessageContent.str s) => exact absurd rfl (h s)

/-- Witness for the amended C10 theorem at the non-string content. -/
theorem identifyRisks_silently_coerces_nonString_witness :
    identifyRisksParse (some MessageContent.nonString) =
      Except.ok (Json.arr []) :=
  identifyRisks_silently_coerces_nonString (some MessageContent.nonString)
    (by intro s hs; cases hs)


/-- Witness for the amended C9 theorem: callers 2 and 3 produce the same
deletion of user 1's map 7, after which even the owner reads `NotFound`. -/
theorem routerDeleteMap_ignores_caller_witness :
    routerDeleteMap 2 7 dbUser1 = routerDeleteMap 3 7 dbUser1 ∧
    getRiskMapWithRisks 7 1 (routerDeleteMap 2 7 dbUser1) = none :=
  ⟨(routerDeleteMap_ignores_caller 2 3 7 dbUser1).1,
    (routerDeleteMap_ignores_caller 2 3 7 dbUser1).2.1 1⟩

end Riskia
